import Mathlib

/-!
Shallow embedding of the resilient service-client pattern from
`examples/level-02-features/04-service-integration/solution/main.py`:
the `CircuitBreaker` state machine, the `retry_with_backoff` decorator,
and the `UserServiceClient.get_user` composition of the two around an
abstract HTTP transport.  Machine floats (delays, timestamps) are
modelled as rationals; Python exceptions are modelled as an explicit
error type threaded through `Except`.
-/

/-- Python exception values that can cross the service-client boundary.
`ServiceError` and its subclasses each get a constructor carrying the
message; `RawException` stands for any Python exception that is not a
`ServiceError` subclass (for example `requests.exceptions.JSONDecodeError`),
which none of the handlers in the source catch. -/
inductive ServiceExc where
  | ServiceError (msg : String)
  | ServiceTimeoutError (msg : String)
  | ServiceConnectionError (msg : String)
  | ServiceValidationError (msg : String)
  | CircuitBreakerOpenError (msg : String)
  | RawException (msg : String)
deriving Repr, DecidableEq

/-- RetryConfig dataclass (main.py lines 56-62): delays are floats in the
source, modelled as rationals. -/
structure RetryConfig where
  max_attempts : Nat
  initial_delay : ℚ
  max_delay : ℚ
  exponential_base : ℚ
deriving Repr, DecidableEq

/-- CircuitBreakerConfig dataclass (main.py lines 65-70). -/
structure CircuitBreakerConfig where
  failure_threshold : Nat
  success_threshold : Nat
  timeout_seconds : ℚ
deriving Repr, DecidableEq

/-- CircuitBreakerState enum (main.py lines 49-53). -/
inductive CircuitBreakerState where
  | CLOSED
  | OPEN
  | HALF_OPEN
deriving Repr, DecidableEq

/-- Mutable state of a CircuitBreaker instance (main.py lines 114-119). -/
structure CircuitBreaker where
  config : CircuitBreakerConfig
  state : CircuitBreakerState
  failure_count : Nat
  success_count : Nat
  last_failure_time : Option ℚ
deriving Repr, DecidableEq

/-- CircuitBreaker.__init__ (main.py lines 114-119). -/
def CircuitBreaker.init (cfg : CircuitBreakerConfig) : CircuitBreaker :=
  { config := cfg, state := .CLOSED, failure_count := 0, success_count := 0,
    last_failure_time := none }

/-- CircuitBreaker._should_attempt_reset (main.py lines 152-156), with the
current wall-clock time passed explicitly. -/
def CircuitBreaker.should_attempt_reset (cb : CircuitBreaker) (now : ℚ) : Bool :=
  match cb.last_failure_time with
  | none => false
  | some t => decide (cb.config.timeout_seconds ≤ now - t)

/-- The open-state check at the top of CircuitBreaker.call
(main.py lines 134-142): either lets the call proceed with the (possibly
half-opened) breaker, or raises CircuitBreakerOpenError. -/
def CircuitBreaker.gate (cb : CircuitBreaker) (now : ℚ) :
    Except ServiceExc CircuitBreaker :=
  if cb.state = .OPEN then
    if cb.should_attempt_reset now then
      .ok { cb with state := .HALF_OPEN, success_count := 0 }
    else
      .error (.CircuitBreakerOpenError
        ("Circuit breaker is OPEN. Last failure: " ++ reprStr cb.last_failure_time))
  else .ok cb

/-- CircuitBreaker._on_success (main.py lines 158-167). -/
def CircuitBreaker.on_success (cb : CircuitBreaker) : CircuitBreaker :=
  if cb.state = .HALF_OPEN then
    let cb2 := { cb with success_count := cb.success_count + 1 }
    if cb2.config.success_threshold ≤ cb2.success_count then
      { cb2 with state := .CLOSED, failure_count := 0 }
    else cb2
  else { cb with failure_count := 0 }

/-- CircuitBreaker._on_failure (main.py lines 169-178), with the current
time passed explicitly in place of time.time(). -/
def CircuitBreaker.on_failure (cb : CircuitBreaker) (now : ℚ) : CircuitBreaker :=
  let cb2 := { cb with failure_count := cb.failure_count + 1,
                       last_failure_time := some now }
  if cb2.config.failure_threshold ≤ cb2.failure_count then
    { cb2 with state := .OPEN }
  else cb2

/-- CircuitBreaker.call (main.py lines 121-150) for one invocation: the
wrapped function is represented by the outcome it would produce if
invoked.  Returns the call result, the updated breaker, and whether the
wrapped function was actually invoked. -/
def CircuitBreaker.callStep {A : Type} (cb : CircuitBreaker) (now : ℚ)
    (op : Except ServiceExc A) : Except ServiceExc A × CircuitBreaker × Bool :=
  match cb.gate now with
  | .error e => (.error e, cb, false)
  | .ok cb2 =>
    match op with
    | .ok a => (.ok a, cb2.on_success, true)
    | .error e => (.error e, cb2.on_failure now, true)

/-- Breaker states reachable from a fresh breaker by any sequence of
calls, at arbitrary times and with arbitrary wrapped-call outcomes. -/
inductive Reachable (cfg : CircuitBreakerConfig) : CircuitBreaker → Prop where
  | init : Reachable cfg (CircuitBreaker.init cfg)
  | step (cb : CircuitBreaker) (now : ℚ) (op : Except ServiceExc Unit) :
      Reachable cfg cb → Reachable cfg (cb.callStep now op).2.1

/-- Result of running the retry wrapper: the value returned or exception
raised, the final threaded state of the wrapped function, the number of
times the wrapped function was invoked, and the list of back-off sleeps
performed, in order. -/
structure RetryTrace (σ A : Type) where
  result : Except ServiceExc A
  finalState : σ
  invocations : Nat
  sleeps : List ℚ
deriving Repr

/-- The loop body of retry_with_backoff.wrapper (main.py lines 197-217).
The wrapped function is modelled as a map from the attempt index and a
threaded state (capturing any mutation it performs, such as circuit
breaker bookkeeping) to an outcome and a new state.  `fuel` is the
number of loop iterations remaining, so the top-level call supplies
`fuel = config.max_attempts` and `attempt = 0`; when the loop ends
without returning, the trailing raise at line 217 fires. -/
def retryAux {σ A : Type} (config : RetryConfig) (retryable : ServiceExc → Bool)
    (func : Nat → σ → Except ServiceExc A × σ) :
    Nat → Nat → ℚ → σ → RetryTrace σ A
  | 0, _, _, s =>
    ⟨.error (.ServiceError
        ("Failed after " ++ toString config.max_attempts ++ " attempts")), s, 0, []⟩
  | fuel + 1, attempt, delay, s =>
    match func attempt s with
    | (.ok a, s2) => ⟨.ok a, s2, 1, []⟩
    | (.error e, s2) =>
      if retryable e then
        if attempt = config.max_attempts - 1 then
          ⟨.error e, s2, 1, []⟩
        else
          let r := retryAux config retryable func fuel (attempt + 1)
            (min (delay * config.exponential_base) config.max_delay) s2
          ⟨r.result, r.finalState, r.invocations + 1, delay :: r.sleeps⟩
      else ⟨.error e, s2, 1, []⟩

/-- retry_with_backoff (main.py lines 185-220) applied to a wrapped
function and an initial threaded state. -/
def retry_with_backoff {σ A : Type} (config : RetryConfig)
    (retryable : ServiceExc → Bool) (func : Nat → σ → Except ServiceExc A × σ)
    (s : σ) : RetryTrace σ A :=
  retryAux config retryable func config.max_attempts 0 config.initial_delay s

/-- The retry wrapper specialised to a stateless wrapped function, given
by the outcome it produces on each attempt. -/
def retryCallOutcomes {A : Type} (config : RetryConfig)
    (retryable : ServiceExc → Bool) (outcomes : Nat → Except ServiceExc A) :
    RetryTrace Unit A :=
  retry_with_backoff config retryable (fun k _ => (outcomes k, ())) ()

/-- The back-off delay sequence of the spec: delay 0 is the initial
delay and each later delay multiplies by the exponential base, capped at
the maximum delay. -/
def delaySeq (config : RetryConfig) : Nat → ℚ
  | 0 => config.initial_delay
  | k + 1 => min (delaySeq config k * config.exponential_base) config.max_delay

/-- The sleeps performed by `m` consecutive retried attempts when the
current delay is `d`: sleep `d`, then continue with the updated delay. -/
def sleepsFrom (config : RetryConfig) (d : ℚ) : Nat → List ℚ
  | 0 => []
  | m + 1 => d :: sleepsFrom config (min (d * config.exponential_base) config.max_delay) m

/-- User pydantic model (main.py lines 28-33); the email is kept as the
raw string of an address that passed EmailStr validation. -/
structure User where
  id : ℤ
  name : String
  email : String
  age : ℤ
deriving Repr, DecidableEq

/-- Abstraction of the body of an HTTP response as far as
`_make_request` observes it: a JSON object that validates as a User, a
JSON document that fails pydantic validation, or bytes that are not
valid JSON at all (on which response.json() raises
requests.exceptions.JSONDecodeError). -/
inductive ResponseBody where
  | jsonUser (u : User)
  | jsonInvalid
  | notJson
deriving Repr, DecidableEq

/-- Abstraction of the outcome of one HTTP request at the transport
level: requests.Timeout, requests.ConnectionError, or a response with a
status code and a body. -/
inductive Transport where
  | timeout
  | connectionError
  | response (status : Nat) (body : ResponseBody)
deriving Repr, DecidableEq

/-- Message of the ServiceError raised for a 404 in get_user
(main.py line 291). -/
def userNotFoundMsg (user_id : ℤ) : String :=
  "User " ++ toString user_id ++ " not found"

/-- Message of the ServiceError raised for any other HTTPError in
get_user (main.py line 292); the status code stands for the repr of the
underlying requests.HTTPError. -/
def userHttpErrorMsg (status : Nat) : String :=
  "HTTP error: " ++ toString status

/-- UserServiceClient.get_user._make_request (main.py lines 270-292)
over an abstract transport outcome.  response.raise_for_status() raises
requests.HTTPError exactly for status codes in [400, 600); only then do
the 404 / generic branches of the HTTPError handler run.  Otherwise the
body is JSON-decoded and validated: a pydantic ValidationError is mapped
to ServiceValidationError, but a JSON decode failure is an exception
that no handler in the function catches and escapes raw. -/
def makeRequestUser (user_id : ℤ) (t : Transport) : Except ServiceExc User :=
  match t with
  | .timeout =>
    .error (.ServiceTimeoutError "Request to user service timed out after 30s")
  | .connectionError =>
    .error (.ServiceConnectionError "Failed to connect to user service")
  | .response status body =>
    if 400 ≤ status ∧ status < 600 then
      if status = 404 then .error (.ServiceError (userNotFoundMsg user_id))
      else .error (.ServiceError (userHttpErrorMsg status))
    else
      match body with
      | .jsonUser u => .ok u
      | .jsonInvalid => .error (.ServiceValidationError "Invalid user data")
      | .notJson => .error (.RawException "requests.exceptions.JSONDecodeError")

/-- The retryable exception classes passed to the retry decorator of
get_user (main.py lines 249-252): ServiceTimeoutError and
ServiceConnectionError and nothing else. -/
def retryableUserService (e : ServiceExc) : Bool :=
  match e with
  | .ServiceTimeoutError _ => true
  | .ServiceConnectionError _ => true
  | _ => false

/-- The RetryConfig() literal used by the decorators (main.py line 250
and the dataclass defaults at lines 59-62). -/
def defaultRetryConfig : RetryConfig :=
  { max_attempts := 3, initial_delay := 1, max_delay := 10, exponential_base := 2 }

/-- One attempt of the body of get_user (main.py lines 268-294):
run `_make_request` on the transport outcome of this attempt under the
circuit breaker.  The threaded state is the breaker together with the
count of actual invocations of `_make_request`. -/
def getUserStep (user_id : ℤ) (times : Nat → ℚ) (transport : Nat → Transport)
    (attempt : Nat) (s : CircuitBreaker × Nat) :
    Except ServiceExc User × (CircuitBreaker × Nat) :=
  let r := s.1.callStep (times attempt) (makeRequestUser user_id (transport attempt))
  (r.1, (r.2.1, if r.2.2 then s.2 + 1 else s.2))

/-- UserServiceClient.get_user (main.py lines 249-294): the retry
decorator, with its literal RetryConfig() and retryable exception
tuple, wrapping the circuit-breaker-guarded request.  `times k` is the
wall-clock time of attempt `k` and `transport k` its transport
outcome. -/
def get_user (user_id : ℤ) (cb : CircuitBreaker) (times : Nat → ℚ)
    (transport : Nat → Transport) : RetryTrace (CircuitBreaker × Nat) User :=
  retry_with_backoff defaultRetryConfig retryableUserService
    (getUserStep user_id times transport) (cb, 0)

/-- The breaker after `k` calls that would all fail with `e`, made from
`cb` at times `times 0, …, times (k-1)`. -/
def iterFailCalls (e : ServiceExc) (times : Nat → ℚ) (cb : CircuitBreaker) :
    Nat → CircuitBreaker
  | 0 => cb
  | k + 1 =>
    ((iterFailCalls e times cb k).callStep (times k)
      ((.error e : Except ServiceExc Unit))).2.1

/-- The breaker after `k` successful calls made from `cb` at times
`times 0, …, times (k-1)`. -/
def iterSuccCalls (times : Nat → ℚ) (cb : CircuitBreaker) :
    Nat → CircuitBreaker
  | 0 => cb
  | k + 1 =>
    ((iterSuccCalls times cb k).callStep (times k)
      ((.ok () : Except ServiceExc Unit))).2.1

/-- The invariant behind the half-open behaviour: once the breaker has
left Closed, its failure count has reached the threshold and is never
reset until the breaker closes again. -/
def FailureCountInv (cb : CircuitBreaker) : Prop :=
  cb.state = .OPEN ∨ cb.state = .HALF_OPEN →
    cb.config.failure_threshold ≤ cb.failure_count

/-- Configuration of the concrete reachable half-open breaker used by
the witnesses: failure threshold 1, success threshold 2, timeout 0. -/
def cfgW : CircuitBreakerConfig := ⟨1, 2, 0⟩

/-- A concrete breaker obtained from a fresh one by one failed call at
time 0 (opening it) and one successful call at time 0 (half-opening it
and recording the success). -/
def cbW : CircuitBreaker :=
  (((CircuitBreaker.init cfgW).callStep 0
      ((.error (.ServiceError "boom") : Except ServiceExc Unit))).2.1.callStep 0
      ((.ok () : Except ServiceExc Unit))).2.1

lemma callStep_blocked {A : Type} (cb : CircuitBreaker) (now : ℚ)
    (op : Except ServiceExc A) (h1 : cb.state = .OPEN)
    (h2 : cb.should_attempt_reset now = false) :
    cb.callStep now op =
      (.error (.CircuitBreakerOpenError
        ("Circuit breaker is OPEN. Last failure: " ++ reprStr cb.last_failure_time)),
       cb, false) := by
  simp [CircuitBreaker.callStep, CircuitBreaker.gate, h1, h2]

lemma callStep_reset_ok {A : Type} (cb : CircuitBreaker) (now : ℚ) (a : A)
    (h1 : cb.state = .OPEN) (h2 : cb.should_attempt_reset now = true) :
    cb.callStep now (.ok a) =
      (.ok a, CircuitBreaker.on_success
        { cb with state := .HALF_OPEN, success_count := 0 }, true) := by
  simp [CircuitBreaker.callStep, CircuitBreaker.gate, h1, h2]

lemma callStep_reset_err {A : Type} (cb : CircuitBreaker) (now : ℚ) (e : ServiceExc)
    (h1 : cb.state = .OPEN) (h2 : cb.should_attempt_reset now = true) :
    (cb.callStep now (.error e : Except ServiceExc A)) =
      (.error e, CircuitBreaker.on_failure
        { cb with state := .HALF_OPEN, success_count := 0 } now, true) := by
  simp [CircuitBreaker.callStep, CircuitBreaker.gate, h1, h2]

lemma callStep_pass_ok {A : Type} (cb : CircuitBreaker) (now : ℚ) (a : A)
    (h1 : cb.state ≠ .OPEN) :
    cb.callStep now (.ok a) = (.ok a, cb.on_success, true) := by
  simp [CircuitBreaker.callStep, CircuitBreaker.gate, h1]

lemma callStep_pass_err {A : Type} (cb : CircuitBreaker) (now : ℚ) (e : ServiceExc)
    (h1 : cb.state ≠ .OPEN) :
    (cb.callStep now (.error e : Except ServiceExc A)) =
      (.error e, cb.on_failure now, true) := by
  simp [CircuitBreaker.callStep, CircuitBreaker.gate, h1]

lemma on_success_not_half (cb : CircuitBreaker) (h : cb.state ≠ .HALF_OPEN) :
    cb.on_success = { cb with failure_count := 0 } := by
  simp [CircuitBreaker.on_success, h]

lemma on_success_half_close (cb : CircuitBreaker) (h : cb.state = .HALF_OPEN)
    (h2 : cb.config.success_threshold ≤ cb.success_count + 1) :
    cb.on_success = { cb with state := .CLOSED, failure_count := 0,
                              success_count := cb.success_count + 1 } := by
  simp [CircuitBreaker.on_success, h, h2]

lemma on_success_half_stay (cb : CircuitBreaker) (h : cb.state = .HALF_OPEN)
    (h2 : cb.success_count + 1 < cb.config.success_threshold) :
    cb.on_success = { cb with success_count := cb.success_count + 1 } := by
  simp [CircuitBreaker.on_success, h, Nat.not_le.mpr h2]

lemma on_failure_open (cb : CircuitBreaker) (now : ℚ)
    (h : cb.config.failure_threshold ≤ cb.failure_count + 1) :
    cb.on_failure now = { cb with state := .OPEN,
                                  failure_count := cb.failure_count + 1,
                                  last_failure_time := some now } := by
  simp [CircuitBreaker.on_failure, h]

lemma on_failure_stay (cb : CircuitBreaker) (now : ℚ)
    (h : cb.failure_count + 1 < cb.config.failure_threshold) :
    cb.on_failure now = { cb with failure_count := cb.failure_count + 1,
                                  last_failure_time := some now } := by
  simp [CircuitBreaker.on_failure, Nat.not_le.mpr h]

lemma callStep_preserves_inv (cb : CircuitBreaker) (now : ℚ)
    (op : Except ServiceExc Unit) (h : FailureCountInv cb) :
    FailureCountInv ((cb.callStep now op).2.1) := by
  by_cases h1 : cb.state = .OPEN
  · have hth : cb.config.failure_threshold ≤ cb.failure_count := h (.inl h1)
    by_cases h2 : cb.should_attempt_reset now
    · cases op with
      | ok a =>
        rw [callStep_reset_ok cb now a h1 h2]
        set cb2 : CircuitBreaker :=
          { cb with state := .HALF_OPEN, success_count := 0 } with hcb2
        by_cases h3 : cb2.config.success_threshold ≤ cb2.success_count + 1
        · rw [on_success_half_close cb2 rfl h3]
          intro hst
          rcases hst with hst | hst <;> simp_all
        · rw [on_success_half_stay cb2 rfl (Nat.not_le.mp h3)]
          intro _
          simpa [hcb2] using hth
      | error e =>
        rw [callStep_reset_err cb now e h1 h2]
        set cb2 : CircuitBreaker :=
          { cb with state := .HALF_OPEN, success_count := 0 } with hcb2
        have h4 : cb2.config.failure_threshold ≤ cb2.failure_count + 1 := by
          simp [hcb2]; omega
        rw [on_failure_open cb2 now h4]
        intro _
        simpa [hcb2] using Nat.le_succ_of_le hth
    · rw [callStep_blocked cb now op h1 (by simpa using h2)]
      exact h
  · cases op with
    | ok a =>
      rw [callStep_pass_ok cb now a h1]
      by_cases h2 : cb.state = .HALF_OPEN
      · by_cases h3 : cb.config.success_threshold ≤ cb.success_count + 1
        · rw [on_success_half_close cb h2 h3]
          intro hst
          rcases hst with hst | hst <;> simp_all
        · rw [on_success_half_stay cb h2 (Nat.not_le.mp h3)]
          intro _
          exact h (.inr h2)
      · rw [on_success_not_half cb h2]
        intro hst
        rcases hst with hst | hst <;> simp_all
    | error e =>
      rw [callStep_pass_err cb now e h1]
      by_cases h3 : cb.config.failure_threshold ≤ cb.failure_count + 1
      · rw [on_failure_open cb now h3]
        intro _
        simpa using h3
      · rw [on_failure_stay cb now (Nat.not_le.mp h3)]
        intro hst
        rcases hst with hst | hst
        · simp_all
        · have := h (.inr (by simpa using hst))
          omega

lemma reachable_inv {cfg : CircuitBreakerConfig} {cb : CircuitBreaker}
    (h : Reachable cfg cb) : FailureCountInv cb := by
  induction h with
  | init =>
    intro hst
    rcases hst with hst | hst <;> simp [CircuitBreaker.init] at hst
  | step cb now op hr ih => exact callStep_preserves_inv cb now op ih

lemma on_success_config (cb : CircuitBreaker) : cb.on_success.config = cb.config := by
  simp only [CircuitBreaker.on_success]
  split
  · split <;> rfl
  · rfl

lemma on_failure_config (cb : CircuitBreaker) (now : ℚ) :
    (cb.on_failure now).config = cb.config := by
  simp only [CircuitBreaker.on_failure]
  split <;> rfl

lemma callStep_config {A : Type} (cb : CircuitBreaker) (now : ℚ)
    (op : Except ServiceExc A) : ((cb.callStep now op).2.1).config = cb.config := by
  by_cases h1 : cb.state = .OPEN
  · by_cases h2 : cb.should_attempt_reset now
    · cases op with
      | ok a => rw [callStep_reset_ok cb now a h1 h2]; simp [on_success_config]
      | error e => rw [callStep_reset_err cb now e h1 h2]; simp [on_failure_config]
    · rw [callStep_blocked cb now op h1 (by simpa using h2)]
  · cases op with
    | ok a => rw [callStep_pass_ok cb now a h1]; simp [on_success_config]
    | error e => rw [callStep_pass_err cb now e h1]; simp [on_failure_config]

lemma reachable_config {cfg : CircuitBreakerConfig} {cb : CircuitBreaker}
    (h : Reachable cfg cb) : cb.config = cfg := by
  induction h with
  | init => rfl
  | step cb now op hr ih => rw [callStep_config]; exact ih

lemma iterFail_from_fresh (cfg : CircuitBreakerConfig) (times : Nat → ℚ)
    (e : ServiceExc) (N : Nat) (hth : cfg.failure_threshold = N) :
    ∀ k, k ≤ N →
      (iterFailCalls e times (CircuitBreaker.init cfg) k).config = cfg ∧
      (iterFailCalls e times (CircuitBreaker.init cfg) k).failure_count = k ∧
      (iterFailCalls e times (CircuitBreaker.init cfg) k).success_count = 0 ∧
      (k < N → (iterFailCalls e times (CircuitBreaker.init cfg) k).state = .CLOSED) ∧
      (k = N → 1 ≤ k →
        (iterFailCalls e times (CircuitBreaker.init cfg) k).state = .OPEN) ∧
      (1 ≤ k → (iterFailCalls e times (CircuitBreaker.init cfg) k).last_failure_time
        = some (times (k - 1))) := by
  intro k
  induction k with
  | zero =>
    intro _
    refine ⟨rfl, rfl, rfl, fun _ => rfl, ?_, ?_⟩ <;> omega
  | succ k ih =>
    intro hk1
    obtain ⟨hcfg, hfc, hsc, hclosed, _, _⟩ := ih (by omega)
    have hst : (iterFailCalls e times (CircuitBreaker.init cfg) k).state = .CLOSED :=
      hclosed (by omega)
    set B := iterFailCalls e times (CircuitBreaker.init cfg) k with hB
    have hstep : iterFailCalls e times (CircuitBreaker.init cfg) (k + 1) =
        (B.on_failure (times k)) := by
      show (B.callStep (times k) ((.error e : Except ServiceExc Unit))).2.1 = _
      rw [callStep_pass_err B (times k) e (by rw [hst]; intro hc; cases hc)]
    by_cases hlast : N ≤ k + 1
    · have hNk : k + 1 = N := by omega
      have hopen : B.config.failure_threshold ≤ B.failure_count + 1 := by
        rw [hcfg, hfc, hth]; omega
      rw [hstep, on_failure_open B (times k) hopen]
      refine ⟨hcfg, by simpa using hfc, hsc, by omega, fun _ _ => rfl, fun _ => ?_⟩
      simp
    · have hstay : B.failure_count + 1 < B.config.failure_threshold := by
        rw [hcfg, hfc, hth]; omega
      rw [hstep, on_failure_stay B (times k) hstay]
      refine ⟨hcfg, by simpa using hfc, hsc, fun _ => hst, by omega, fun _ => ?_⟩
      simp

/-- C1: with failure_threshold = N ≥ 1, a fresh breaker reaches Open
after N consecutive failed calls (each of which really invoked the
wrapped operation), and a further call made before timeout_seconds have
elapsed since the last failure raises CircuitBreakerOpenError without
invoking the wrapped operation and leaves the breaker unchanged. -/
theorem C1_breaker_opens_after_threshold_failures (cfg : CircuitBreakerConfig)
    (N : Nat) (hN : 1 ≤ N) (hth : cfg.failure_threshold = N)
    (times : Nat → ℚ) (e : ServiceExc) (tNext : ℚ)
    (hlt : tNext - times (N - 1) < cfg.timeout_seconds)
    (op : Except ServiceExc Unit) :
    (iterFailCalls e times (CircuitBreaker.init cfg) N).state = .OPEN ∧
    (∀ k, k < N →
      ((iterFailCalls e times (CircuitBreaker.init cfg) k).callStep (times k)
        ((.error e : Except ServiceExc Unit))).2.2 = true) ∧
    (∃ m, ((iterFailCalls e times (CircuitBreaker.init cfg) N).callStep tNext op).1
        = .error (.CircuitBreakerOpenError m)) ∧
    ((iterFailCalls e times (CircuitBreaker.init cfg) N).callStep tNext op).2.2
      = false ∧
    ((iterFailCalls e times (CircuitBreaker.init cfg) N).callStep tNext op).2.1
      = iterFailCalls e times (CircuitBreaker.init cfg) N := by
  obtain ⟨hcfg, hfc, hsc, _, hopen, hlft⟩ :=
    iterFail_from_fresh cfg times e N hth N (le_refl N)
  have hst : (iterFailCalls e times (CircuitBreaker.init cfg) N).state = .OPEN :=
    hopen rfl hN
  set B := iterFailCalls e times (CircuitBreaker.init cfg) N with hB
  have hreset : B.should_attempt_reset tNext = false := by
    simp only [CircuitBreaker.should_attempt_reset, hlft hN]
    simpa [hcfg] using not_le.mpr hlt
  have hblocked := callStep_blocked B tNext op hst hreset
  refine ⟨hst, ?_, ⟨_, by rw [hblocked]⟩, by rw [hblocked], by rw [hblocked]⟩
  intro k hk
  obtain ⟨_, _, _, hclosed, _, _⟩ :=
    iterFail_from_fresh cfg times e N hth k (by omega)
  rw [callStep_pass_err _ (times k) e (by rw [hclosed hk]; intro hc; cases hc)]

/-- C1 witness: threshold 2, two failing calls at time 0, a third call
at time 0 while the 60-second timeout has not elapsed. -/
theorem C1_witness :
    (1 ≤ 2 ∧ (⟨2, 2, 60⟩ : CircuitBreakerConfig).failure_threshold = 2 ∧
      ((0 : ℚ) - (fun _ => (0 : ℚ)) (2 - 1) < (60 : ℚ))) ∧
    ((iterFailCalls (.ServiceError "boom") (fun _ => (0 : ℚ))
        (CircuitBreaker.init ⟨2, 2, 60⟩) 2).state = .OPEN ∧
     (∀ k, k < 2 →
       ((iterFailCalls (.ServiceError "boom") (fun _ => (0 : ℚ))
          (CircuitBreaker.init ⟨2, 2, 60⟩) k).callStep ((fun _ => (0 : ℚ)) k)
          ((.error (.ServiceError "boom") : Except ServiceExc Unit))).2.2 = true) ∧
     (∃ m, ((iterFailCalls (.ServiceError "boom") (fun _ => (0 : ℚ))
          (CircuitBreaker.init ⟨2, 2, 60⟩) 2).callStep 0
          ((.ok () : Except ServiceExc Unit))).1
        = .error (.CircuitBreakerOpenError m)) ∧
     ((iterFailCalls (.ServiceError "boom") (fun _ => (0 : ℚ))
        (CircuitBreaker.init ⟨2, 2, 60⟩) 2).callStep 0
        ((.ok () : Except ServiceExc Unit))).2.2 = false ∧
     ((iterFailCalls (.ServiceError "boom") (fun _ => (0 : ℚ))
        (CircuitBreaker.init ⟨2, 2, 60⟩) 2).callStep 0
        ((.ok () : Except ServiceExc Unit))).2.1
       = iterFailCalls (.ServiceError "boom") (fun _ => (0 : ℚ))
          (CircuitBreaker.init ⟨2, 2, 60⟩) 2) :=
  ⟨⟨by decide, rfl, by simp⟩,
   C1_breaker_opens_after_threshold_failures ⟨2, 2, 60⟩ 2 (by decide) rfl
     (fun _ => (0 : ℚ)) (.ServiceError "boom") 0 (by simp) (.ok ())⟩

/-- C5: a call on an Open breaker at least timeout_seconds after the
last failure passes the gate with state HalfOpen and success_count
reset to 0, preserving the failure count, and does invoke the wrapped
operation. -/
theorem C5_open_after_timeout_half_opens_and_invokes (cb : CircuitBreaker)
    (now t0 : ℚ) {A : Type} (op : Except ServiceExc A)
    (h1 : cb.state = .OPEN) (h2 : cb.last_failure_time = some t0)
    (h3 : cb.config.timeout_seconds ≤ now - t0) :
    cb.gate now = .ok { cb with state := .HALF_OPEN, success_count := 0 } ∧
    (cb.callStep now op).2.2 = true := by
  have hreset : cb.should_attempt_reset now = true := by
    simp [CircuitBreaker.should_attempt_reset, h2, h3]
  constructor
  · simp [CircuitBreaker.gate, h1, hreset]
  · cases op with
    | ok a => rw [callStep_reset_ok cb now a h1 hreset]
    | error e => rw [callStep_reset_err cb now e h1 hreset]

lemma iterSucc_closed (times : Nat → ℚ) (cb : CircuitBreaker)
    (h : cb.state = .CLOSED) :
    ∀ k, (iterSuccCalls times cb k).state = .CLOSED ∧
      (iterSuccCalls times cb k).config = cb.config ∧
      (1 ≤ k → (iterSuccCalls times cb k).failure_count = 0) := by
  intro k
  induction k with
  | zero => exact ⟨h, rfl, by omega⟩
  | succ k ih =>
    obtain ⟨hst, hcfg, _⟩ := ih
    set B := iterSuccCalls times cb k with hB
    have hstep : iterSuccCalls times cb (k + 1) = B.on_success := by
      show (B.callStep (times k) ((.ok () : Except ServiceExc Unit))).2.1 = _
      rw [callStep_pass_ok B (times k) () (by rw [hst]; intro hc; cases hc)]
    rw [hstep, on_success_not_half B (by rw [hst]; intro hc; cases hc)]
    exact ⟨hst, hcfg, fun _ => rfl⟩

lemma iterSucc_half_open (times : Nat → ℚ) (cb : CircuitBreaker)
    (h : cb.state = .HALF_OPEN) :
    ∀ k, ((iterSuccCalls times cb k).state = .HALF_OPEN ∧
        (iterSuccCalls times cb k).success_count = cb.success_count + k ∧
        (iterSuccCalls times cb k).failure_count = cb.failure_count ∧
        (iterSuccCalls times cb k).config = cb.config ∧
        (k = 0 ∨ cb.success_count + k < cb.config.success_threshold))
      ∨ ((iterSuccCalls times cb k).state = .CLOSED ∧
         (iterSuccCalls times cb k).failure_count = 0 ∧
         (iterSuccCalls times cb k).config = cb.config) := by
  intro k
  induction k with
  | zero => exact .inl ⟨h, rfl, rfl, rfl, .inl rfl⟩
  | succ k ih =>
    set B := iterSuccCalls times cb k with hB
    rcases ih with ⟨hst, hsc, hfc, hcfg, _⟩ | ⟨hst, hfc, hcfg⟩
    · have hstep : iterSuccCalls times cb (k + 1) = B.on_success := by
        show (B.callStep (times k) ((.ok () : Except ServiceExc Unit))).2.1 = _
        rw [callStep_pass_ok B (times k) () (by rw [hst]; intro hc; cases hc)]
      by_cases hS : B.config.success_threshold ≤ B.success_count + 1
      · rw [hstep, on_success_half_close B hst hS]
        exact .inr ⟨rfl, rfl, hcfg⟩
      · rw [hstep, on_success_half_stay B hst (Nat.not_le.mp hS)]
        refine .inl ⟨hst, by show B.success_count + 1 = cb.success_count + (k + 1); omega,
          hfc, hcfg, .inr ?_⟩
        rw [hsc, hcfg] at hS
        omega
    · have hstep : iterSuccCalls times cb (k + 1) = B.on_success := by
        show (B.callStep (times k) ((.ok () : Except ServiceExc Unit))).2.1 = _
        rw [callStep_pass_ok B (times k) () (by rw [hst]; intro hc; cases hc)]
      rw [hstep, on_success_not_half B (by rw [hst]; intro hc; cases hc)]
      exact .inr ⟨hst, rfl, hcfg⟩

/-- C6: from any reachable breaker in HalfOpen, success_threshold
consecutive successful calls close the breaker and reset its failure
count to 0, while a single failed call reopens it. -/
theorem C6_half_open_closes_after_successes_reopens_on_failure
    (cfg : CircuitBreakerConfig) (cb : CircuitBreaker) (times : Nat → ℚ)
    (hr : Reachable cfg cb) (h : cb.state = .HALF_OPEN)
    (hS : 1 ≤ cfg.success_threshold) :
    ((iterSuccCalls times cb cfg.success_threshold).state = .CLOSED ∧
     (iterSuccCalls times cb cfg.success_threshold).failure_count = 0) ∧
    ∀ (e : ServiceExc) (now : ℚ),
      ((cb.callStep now ((.error e : Except ServiceExc Unit))).2.1).state
        = .OPEN := by
  have hcfg : cb.config = cfg := reachable_config hr
  constructor
  · rcases iterSucc_half_open times cb h cfg.success_threshold with
      ⟨_, _, _, _, hbound⟩ | ⟨hst, hfc, _⟩
    · rw [hcfg] at hbound
      omega
    · exact ⟨hst, hfc⟩
  · intro e now
    have hfc : cb.config.failure_threshold ≤ cb.failure_count :=
      reachable_inv hr (.inr h)
    rw [callStep_pass_err cb now e (by rw [h]; intro hc; cases hc),
        on_failure_open cb now (Nat.le_succ_of_le hfc)]

lemma cbW_reachable : Reachable cfgW cbW :=
  Reachable.step _ 0 (.ok ())
    (Reachable.step _ 0 (.error (.ServiceError "boom")) Reachable.init)

lemma cbW_val : cbW = ⟨cfgW, .HALF_OPEN, 1, 1, some 0⟩ := by
  have s1 : ((CircuitBreaker.init cfgW).callStep 0
      ((.error (.ServiceError "boom") : Except ServiceExc Unit))).2.1
      = ⟨cfgW, .OPEN, 1, 0, some 0⟩ := by
    rw [callStep_pass_err _ _ _ (by intro hc; cases hc),
        on_failure_open _ _ (by simp [CircuitBreaker.init, cfgW])]
    rfl
  show (((CircuitBreaker.init cfgW).callStep 0
      ((.error (.ServiceError "boom") : Except ServiceExc Unit))).2.1.callStep 0
      ((.ok () : Except ServiceExc Unit))).2.1 = _
  rw [s1]
  have hreset : (⟨cfgW, .OPEN, 1, 0, some 0⟩ : CircuitBreaker).should_attempt_reset 0
      = true := by
    simp [CircuitBreaker.should_attempt_reset, cfgW]
  rw [callStep_reset_ok _ _ _ rfl hreset,
      on_success_half_stay _ rfl (by simp [cfgW])]

/-- C6 witness: the concrete reachable half-open breaker, closed by two
successes, reopened by one failure. -/
theorem C6_witness :
    cbW.state = .HALF_OPEN ∧ 1 ≤ cfgW.success_threshold ∧
    ((iterSuccCalls (fun _ => (0 : ℚ)) cbW cfgW.success_threshold).state
       = .CLOSED ∧
     (iterSuccCalls (fun _ => (0 : ℚ)) cbW cfgW.success_threshold).failure_count
       = 0) ∧
    ((cbW.callStep 0 ((.error (.ServiceError "x") : Except ServiceExc Unit))).2.1).state
      = .OPEN := by
  have hst : cbW.state = .HALF_OPEN := by rw [cbW_val]
  have h := C6_half_open_closes_after_successes_reopens_on_failure cfgW cbW
    (fun _ => (0 : ℚ)) cbW_reachable hst (by decide)
  exact ⟨hst, by decide, h.1, h.2 (.ServiceError "x") 0⟩

/-- C9: every reachable breaker in HalfOpen has a failure count at least
the failure threshold, which is what makes a single failure in HalfOpen
reopen the breaker. -/
theorem C9_half_open_failure_count_at_threshold (cfg : CircuitBreakerConfig)
    (cb : CircuitBreaker) (hr : Reachable cfg cb)
    (h : cb.state = .HALF_OPEN) :
    cfg.failure_threshold ≤ cb.failure_count := by
  have hcfg : cb.config = cfg := reachable_config hr
  have := reachable_inv hr (.inr h)
  rwa [hcfg] at this

/-- C9 witness: the concrete reachable half-open breaker has failure
count 1 ≥ threshold 1. -/
theorem C9_witness :
    cbW.state = .HALF_OPEN ∧ cfgW.failure_threshold ≤ cbW.failure_count := by
  have hst : cbW.state = .HALF_OPEN := by rw [cbW_val]
  exact ⟨hst, C9_half_open_failure_count_at_threshold cfgW cbW cbW_reachable hst⟩

lemma sleepsFrom_length (cfg : RetryConfig) : ∀ (m : Nat) (d : ℚ),
    (sleepsFrom cfg d m).length = m := by
  intro m
  induction m with
  | zero => intro d; rfl
  | succ m ih => intro d; simp [sleepsFrom, ih]

lemma sleepsFrom_pos (cfg : RetryConfig) (d : ℚ) (f : Nat) (h : 1 ≤ f) :
    sleepsFrom cfg d f
      = d :: sleepsFrom cfg (min (d * cfg.exponential_base) cfg.max_delay) (f - 1) := by
  obtain ⟨f2, rfl⟩ : ∃ f2, f = f2 + 1 := ⟨f - 1, by omega⟩
  simp [sleepsFrom]

lemma sleepsFrom_delaySeq (cfg : RetryConfig) : ∀ (m j : Nat),
    sleepsFrom cfg (delaySeq cfg j) m
      = (List.range m).map (fun i => delaySeq cfg (j + i)) := by
  intro m
  induction m with
  | zero => intro j; rfl
  | succ m ih =>
    intro j
    have hmin : min (delaySeq cfg j * cfg.exponential_base) cfg.max_delay
        = delaySeq cfg (j + 1) := rfl
    have hfun : (fun i => delaySeq cfg (j + 1 + i))
        = ((fun i => delaySeq cfg (j + i)) ∘ Nat.succ) := by
      funext i
      show delaySeq cfg (j + 1 + i) = delaySeq cfg (j + (i + 1))
      congr 1
      omega
    rw [show sleepsFrom cfg (delaySeq cfg j) (m + 1)
        = delaySeq cfg j ::
          sleepsFrom cfg (min (delaySeq cfg j * cfg.exponential_base) cfg.max_delay) m
      from rfl, hmin, ih (j + 1)]
    simp only [List.range_succ_eq_map, List.map_cons, List.map_map, Nat.add_zero, hfun]

lemma sleepsFrom_initial (cfg : RetryConfig) (m : Nat) :
    sleepsFrom cfg cfg.initial_delay m = (List.range m).map (delaySeq cfg) := by
  have h0 : cfg.initial_delay = delaySeq cfg 0 := rfl
  rw [h0, sleepsFrom_delaySeq cfg m 0]
  congr 1
  funext i
  rw [Nat.zero_add]

lemma retryAux_all_retryable_fail {A : Type} (cfg : RetryConfig)
    (retryable : ServiceExc → Bool) (errs : Nat → ServiceExc)
    (hret : ∀ k, retryable (errs k) = true) :
    ∀ fuel attempt (d : ℚ), 1 ≤ fuel → attempt + fuel = cfg.max_attempts →
      retryAux cfg retryable
          (fun k _ => ((.error (errs k) : Except ServiceExc A), ())) fuel attempt d ()
        = ⟨.error (errs (cfg.max_attempts - 1)), (), fuel,
           sleepsFrom cfg d (fuel - 1)⟩ := by
  intro fuel
  induction fuel with
  | zero => intro attempt d h1 _; omega
  | succ f ih =>
    intro attempt d _ h2
    have hunfold : retryAux cfg retryable
        (fun k _ => ((.error (errs k) : Except ServiceExc A), ())) (f + 1) attempt d ()
        = if retryable (errs attempt) then
            (if attempt = cfg.max_attempts - 1 then
              ⟨.error (errs attempt), (), 1, []⟩
            else
              let r := retryAux cfg retryable
                (fun k _ => ((.error (errs k) : Except ServiceExc A), ())) f
                (attempt + 1) (min (d * cfg.exponential_base) cfg.max_delay) ()
              ⟨r.result, r.finalState, r.invocations + 1, d :: r.sleeps⟩)
          else ⟨.error (errs attempt), (), 1, []⟩ := rfl
    rw [hunfold, if_pos (hret attempt)]
    by_cases hf : f = 0
    · subst hf
      have hlast : attempt = cfg.max_attempts - 1 := by omega
      rw [if_pos hlast, hlast]
      rfl
    · have hlast : ¬ (attempt = cfg.max_attempts - 1) := by omega
      rw [if_neg hlast]
      have hrec := ih (attempt + 1)
        (min (d * cfg.exponential_base) cfg.max_delay) (by omega) (by omega)
      simp only [hrec]
      rw [sleepsFrom_pos cfg d (f + 1 - 1) (by omega)]
      simp

lemma retryAux_result_from_wrapped {A : Type} (cfg : RetryConfig)
    (retryable : ServiceExc → Bool) (outcomes : Nat → Except ServiceExc A) :
    ∀ fuel attempt (d : ℚ), 1 ≤ fuel → attempt + fuel = cfg.max_attempts →
      1 ≤ (retryAux cfg retryable (fun k _ => (outcomes k, ()))
            fuel attempt d ()).invocations ∧
      (retryAux cfg retryable (fun k _ => (outcomes k, ()))
            fuel attempt d ()).result
        = outcomes (attempt + (retryAux cfg retryable (fun k _ => (outcomes k, ()))
            fuel attempt d ()).invocations - 1) := by
  intro fuel
  induction fuel with
  | zero => intro attempt d h1 _; omega
  | succ f ih =>
    intro attempt d _ h2
    cases houtcome : outcomes attempt with
    | ok a =>
      have hstep : retryAux cfg retryable (fun k _ => (outcomes k, ()))
          (f + 1) attempt d () = ⟨.ok a, (), 1, []⟩ := by
        simp [retryAux, houtcome]
      rw [hstep]
      exact ⟨le_refl 1, by simp [houtcome]⟩
    | error e =>
      by_cases hr : retryable e = true
      · by_cases hlast : attempt = cfg.max_attempts - 1
        · have hstep : retryAux cfg retryable (fun k _ => (outcomes k, ()))
              (f + 1) attempt d () = ⟨.error e, (), 1, []⟩ := by
            simp only [retryAux, houtcome, hr]
            simp [hlast]
          rw [hstep]
          exact ⟨le_refl 1, by simp [houtcome]⟩
        · have hf : 1 ≤ f := by omega
          obtain ⟨hinv, hres⟩ := ih (attempt + 1)
            (min (d * cfg.exponential_base) cfg.max_delay) hf (by omega)
          set R := retryAux cfg retryable (fun k _ => (outcomes k, ())) f
            (attempt + 1) (min (d * cfg.exponential_base) cfg.max_delay) () with hR
          have hstep : retryAux cfg retryable (fun k _ => (outcomes k, ()))
              (f + 1) attempt d ()
              = ⟨R.result, R.finalState, R.invocations + 1, d :: R.sleeps⟩ := by
            simp [retryAux, houtcome, hr, hlast, hR]
          rw [hstep]
          refine ⟨by simp, ?_⟩
          show R.result = outcomes (attempt + (R.invocations + 1) - 1)
          rw [hres]
          congr 1
          omega
      · have hstep : retryAux cfg retryable (fun k _ => (outcomes k, ()))
            (f + 1) attempt d () = ⟨.error e, (), 1, []⟩ := by
          simp [retryAux, houtcome, hr]
        rw [hstep]
        exact ⟨le_refl 1, by simp [houtcome]⟩

/-- C2: when the wrapped operation raises a retryable error on every
invocation and max_attempts = N ≥ 1, the retry wrapper invokes the
operation exactly N times, propagates the Nth failure, and sleeps only
N - 1 times (none at all when N = 1). -/
theorem C2_retryable_failures_exhaust_attempts (cfg : RetryConfig)
    (retryable : ServiceExc → Bool) (errs : Nat → ServiceExc)
    (hret : ∀ k, retryable (errs k) = true) (N : Nat)
    (hN : cfg.max_attempts = N) (h1 : 1 ≤ N) :
    (retryCallOutcomes cfg retryable
      (fun k => (.error (errs k) : Except ServiceExc Unit))).invocations = N ∧
    (retryCallOutcomes cfg retryable
      (fun k => (.error (errs k) : Except ServiceExc Unit))).result
      = .error (errs (N - 1)) ∧
    (retryCallOutcomes cfg retryable
      (fun k => (.error (errs k) : Except ServiceExc Unit))).sleeps.length = N - 1 ∧
    (N = 1 → (retryCallOutcomes cfg retryable
      (fun k => (.error (errs k) : Except ServiceExc Unit))).sleeps = []) := by
  have ht : retryCallOutcomes cfg retryable
      (fun k => (.error (errs k) : Except ServiceExc Unit))
      = ⟨.error (errs (cfg.max_attempts - 1)), (), cfg.max_attempts,
         sleepsFrom cfg cfg.initial_delay (cfg.max_attempts - 1)⟩ :=
    retryAux_all_retryable_fail cfg retryable errs hret cfg.max_attempts 0
      cfg.initial_delay (by omega) (by omega)
  rw [ht]
  refine ⟨hN, by rw [hN], by rw [hN, sleepsFrom_length], ?_⟩
  intro hone
  rw [hN, hone]
  rfl

/-- C2 witness: two attempts, both failing with a retryable error. -/
theorem C2_witness :
    (∀ k, (fun _ : ServiceExc => true) ((fun _ : Nat => ServiceExc.ServiceTimeoutError "t") k) = true) ∧
    (⟨2, 1, 10, 2⟩ : RetryConfig).max_attempts = 2 ∧
    (retryCallOutcomes ⟨2, 1, 10, 2⟩ (fun _ : ServiceExc => true)
      (fun k => (.error ((fun _ : Nat => ServiceExc.ServiceTimeoutError "t") k)
        : Except ServiceExc Unit))).invocations = 2 ∧
    (retryCallOutcomes ⟨2, 1, 10, 2⟩ (fun _ : ServiceExc => true)
      (fun k => (.error ((fun _ : Nat => ServiceExc.ServiceTimeoutError "t") k)
        : Except ServiceExc Unit))).result
      = .error (ServiceExc.ServiceTimeoutError "t") ∧
    (retryCallOutcomes ⟨2, 1, 10, 2⟩ (fun _ : ServiceExc => true)
      (fun k => (.error ((fun _ : Nat => ServiceExc.ServiceTimeoutError "t") k)
        : Except ServiceExc Unit))).sleeps.length = 2 - 1 :=
  have h := C2_retryable_failures_exhaust_attempts ⟨2, 1, 10, 2⟩ (fun _ : ServiceExc => true)
    (fun _ : Nat => ServiceExc.ServiceTimeoutError "t") (fun _ => rfl) 2 rfl (by decide)
  ⟨fun _ => rfl, rfl, h.1, h.2.1, h.2.2.1⟩

/-- C4: under all-retryable failures the sleeps performed are exactly
the prefix of the delay sequence with delay 0 = initial_delay and
delay (k+1) = min (delay k * base) max_delay; for the concrete config
(initial 1, base 2, cap 10) that sequence starts 1, 2, 4, 8, 10, 10. -/
theorem C4_backoff_delay_sequence (cfg : RetryConfig)
    (retryable : ServiceExc → Bool) (errs : Nat → ServiceExc)
    (hret : ∀ k, retryable (errs k) = true) (N : Nat)
    (hN : cfg.max_attempts = N) (h1 : 1 ≤ N) :
    (retryCallOutcomes cfg retryable
      (fun k => (.error (errs k) : Except ServiceExc Unit))).sleeps
      = (List.range (N - 1)).map (delaySeq cfg) ∧
    delaySeq cfg 0 = cfg.initial_delay ∧
    (∀ k, delaySeq cfg (k + 1)
      = min (delaySeq cfg k * cfg.exponential_base) cfg.max_delay) ∧
    (List.range 6).map (delaySeq ⟨3, 1, 10, 2⟩) = [1, 2, 4, 8, 10, 10] := by
  have ht : retryCallOutcomes cfg retryable
      (fun k => (.error (errs k) : Except ServiceExc Unit))
      = ⟨.error (errs (cfg.max_attempts - 1)), (), cfg.max_attempts,
         sleepsFrom cfg cfg.initial_delay (cfg.max_attempts - 1)⟩ :=
    retryAux_all_retryable_fail cfg retryable errs hret cfg.max_attempts 0
      cfg.initial_delay (by omega) (by omega)
  refine ⟨?_, rfl, fun k => rfl, ?_⟩
  · rw [ht]
    show sleepsFrom cfg cfg.initial_delay (cfg.max_attempts - 1) = _
    rw [sleepsFrom_initial, hN]
  · have e1 : delaySeq ⟨3, 1, 10, 2⟩ 1 = 2 := by
      show min ((1 : ℚ) * 2) 10 = 2
      norm_num
    have e2 : delaySeq ⟨3, 1, 10, 2⟩ 2 = 4 := by
      show min (delaySeq ⟨3, 1, 10, 2⟩ 1 * 2) 10 = 4
      rw [e1]; norm_num
    have e3 : delaySeq ⟨3, 1, 10, 2⟩ 3 = 8 := by
      show min (delaySeq ⟨3, 1, 10, 2⟩ 2 * 2) 10 = 8
      rw [e2]; norm_num
    have e4 : delaySeq ⟨3, 1, 10, 2⟩ 4 = 10 := by
      show min (delaySeq ⟨3, 1, 10, 2⟩ 3 * 2) 10 = 10
      rw [e3]; norm_num
    have e5 : delaySeq ⟨3, 1, 10, 2⟩ 5 = 10 := by
      show min (delaySeq ⟨3, 1, 10, 2⟩ 4 * 2) 10 = 10
      rw [e4]; norm_num
    show [delaySeq ⟨3, 1, 10, 2⟩ 0, delaySeq ⟨3, 1, 10, 2⟩ 1, delaySeq ⟨3, 1, 10, 2⟩ 2,
          delaySeq ⟨3, 1, 10, 2⟩ 3, delaySeq ⟨3, 1, 10, 2⟩ 4, delaySeq ⟨3, 1, 10, 2⟩ 5]
        = [1, 2, 4, 8, 10, 10]
    rw [e1, e2, e3, e4, e5]
    rfl

/-- C4 witness: three attempts failing retryably sleep 1 then 2
seconds. -/
theorem C4_witness :
    (∀ k, (fun _ : ServiceExc => true) ((fun _ : Nat => ServiceExc.ServiceTimeoutError "t") k) = true) ∧
    (⟨3, 1, 10, 2⟩ : RetryConfig).max_attempts = 3 ∧
    (retryCallOutcomes ⟨3, 1, 10, 2⟩ (fun _ : ServiceExc => true)
      (fun k => (.error ((fun _ : Nat => ServiceExc.ServiceTimeoutError "t") k)
        : Except ServiceExc Unit))).sleeps
      = (List.range (3 - 1)).map (delaySeq ⟨3, 1, 10, 2⟩) ∧
    (List.range 6).map (delaySeq ⟨3, 1, 10, 2⟩) = [1, 2, 4, 8, 10, 10] :=
  have h := C4_backoff_delay_sequence ⟨3, 1, 10, 2⟩ (fun _ : ServiceExc => true)
    (fun _ : Nat => ServiceExc.ServiceTimeoutError "t") (fun _ => rfl) 3 rfl (by decide)
  ⟨fun _ => rfl, rfl, h.1, h.2.2.2⟩

/-- C10: whenever max_attempts ≥ 1 the trailing raise after the retry
loop is dead code — the wrapper yields exactly the outcome of the
last invocation of the wrapped operation — while max_attempts = 0 never
invokes the operation and raises the generic ServiceError instead. -/
theorem C10_final_raise_only_with_zero_attempts {A : Type} (cfg : RetryConfig)
    (retryable : ServiceExc → Bool) (outcomes : Nat → Except ServiceExc A) :
    (1 ≤ cfg.max_attempts →
      1 ≤ (retryCallOutcomes cfg retryable outcomes).invocations ∧
      (retryCallOutcomes cfg retryable outcomes).result
        = outcomes ((retryCallOutcomes cfg retryable outcomes).invocations - 1)) ∧
    (cfg.max_attempts = 0 →
      (retryCallOutcomes cfg retryable outcomes).invocations = 0 ∧
      (retryCallOutcomes cfg retryable outcomes).result
        = .error (.ServiceError "Failed after 0 attempts")) := by
  constructor
  · intro h1
    have h := retryAux_result_from_wrapped cfg retryable outcomes
      cfg.max_attempts 0 cfg.initial_delay h1 (by omega)
    simpa using h
  · intro h0
    have ht : retryCallOutcomes cfg retryable outcomes
        = retryAux cfg retryable (fun k _ => (outcomes k, ()))
            cfg.max_attempts 0 cfg.initial_delay () := rfl
    rw [h0] at ht
    rw [ht]
    refine ⟨rfl, ?_⟩
    show (Except.error (ServiceExc.ServiceError ("Failed after "
        ++ toString cfg.max_attempts ++ " attempts")) : Except ServiceExc A)
      = Except.error (ServiceExc.ServiceError "Failed after 0 attempts")
    rw [h0]
    rfl

/-- C10 witness: with one attempt the result is the outcome produced by
the operation; with zero attempts the operation is skipped and the
generic failure raised. -/
theorem C10_witness :
    (1 ≤ (retryCallOutcomes ⟨1, 1, 10, 2⟩ (fun _ : ServiceExc => true)
        (fun _ : Nat => (.ok () : Except ServiceExc Unit))).invocations ∧
      (retryCallOutcomes ⟨1, 1, 10, 2⟩ (fun _ : ServiceExc => true)
        (fun _ : Nat => (.ok () : Except ServiceExc Unit))).result
        = (fun _ : Nat => (.ok () : Except ServiceExc Unit))
            ((retryCallOutcomes ⟨1, 1, 10, 2⟩ (fun _ : ServiceExc => true)
              (fun _ : Nat => (.ok () : Except ServiceExc Unit))).invocations - 1)) ∧
    ((retryCallOutcomes ⟨0, 1, 10, 2⟩ (fun _ : ServiceExc => true)
        (fun _ : Nat => (.ok () : Except ServiceExc Unit))).invocations = 0 ∧
      (retryCallOutcomes ⟨0, 1, 10, 2⟩ (fun _ : ServiceExc => true)
        (fun _ : Nat => (.ok () : Except ServiceExc Unit))).result
        = .error (.ServiceError "Failed after 0 attempts")) :=
  ⟨(C10_final_raise_only_with_zero_attempts ⟨1, 1, 10, 2⟩ (fun _ : ServiceExc => true)
      (fun _ : Nat => (.ok () : Except ServiceExc Unit))).1 (by decide),
   (C10_final_raise_only_with_zero_attempts ⟨0, 1, 10, 2⟩ (fun _ : ServiceExc => true)
      (fun _ : Nat => (.ok () : Except ServiceExc Unit))).2 rfl⟩

lemma retryAux_step_nonretryable {σ A : Type} (cfg : RetryConfig)
    (retryable : ServiceExc → Bool) (func : Nat → σ → Except ServiceExc A × σ)
    (fuel attempt : Nat) (d : ℚ) (s : σ) (e : ServiceExc) (s2 : σ)
    (hf : func attempt s = (.error e, s2)) (hr : retryable e = false) :
    retryAux cfg retryable func (fuel + 1) attempt d s = ⟨.error e, s2, 1, []⟩ := by
  simp [retryAux, hf, hr]

/-- C3 as amended: a call whose HTTP response has an error status in
the 4xx/5xx range — the exact statuses on which raise_for_status
raises, rather than every non-2xx status — invokes the request exactly
once, performs no sleep and no retry, and surfaces the not-found
ServiceError for a 404 or the generic HTTP-error ServiceError for any
other 4xx/5xx status. -/
theorem C3_non_retryable_http_error_single_attempt (user_id : ℤ)
    (cb : CircuitBreaker) (times : Nat → ℚ) (transport : Nat → Transport)
    (s : Nat) (b : ResponseBody)
    (hcb : cb.state = .CLOSED) (htr : transport 0 = .response s b)
    (h4 : 400 ≤ s) (h6 : s < 600) :
    (get_user user_id cb times transport).invocations = 1 ∧
    (get_user user_id cb times transport).finalState.2 = 1 ∧
    (get_user user_id cb times transport).sleeps = [] ∧
    (get_user user_id cb times transport).result
      = .error (.ServiceError (if s = 404 then userNotFoundMsg user_id
          else userHttpErrorMsg s)) := by
  have hmk : makeRequestUser user_id (transport 0)
      = .error (.ServiceError (if s = 404 then userNotFoundMsg user_id
          else userHttpErrorMsg s)) := by
    rw [htr]
    simp only [makeRequestUser]
    rw [if_pos ⟨h4, h6⟩]
    by_cases h404 : s = 404 <;> simp [h404]
  have hstate : cb.state ≠ .OPEN := by rw [hcb]; intro hc; cases hc
  have hcall : cb.callStep (times 0)
      ((.error (.ServiceError (if s = 404 then userNotFoundMsg user_id
        else userHttpErrorMsg s))) : Except ServiceExc User)
      = (.error (.ServiceError (if s = 404 then userNotFoundMsg user_id
          else userHttpErrorMsg s)), cb.on_failure (times 0), true) :=
    callStep_pass_err cb (times 0) _ hstate
  have hfunc : getUserStep user_id times transport 0 (cb, 0)
      = (.error (.ServiceError (if s = 404 then userNotFoundMsg user_id
          else userHttpErrorMsg s)), (cb.on_failure (times 0), 1)) := by
    simp [getUserStep, hmk, hcall]
  have hret : retryableUserService (.ServiceError (if s = 404 then
      userNotFoundMsg user_id else userHttpErrorMsg s)) = false := rfl
  have ht : get_user user_id cb times transport
      = ⟨.error (.ServiceError (if s = 404 then userNotFoundMsg user_id
          else userHttpErrorMsg s)), (cb.on_failure (times 0), 1), 1, []⟩ :=
    retryAux_step_nonretryable defaultRetryConfig retryableUserService
      (getUserStep user_id times transport) 2 0 defaultRetryConfig.initial_delay
      (cb, 0) _ _ hfunc hret
  rw [ht]
  exact ⟨rfl, rfl, rfl, rfl⟩

/-- C3 witness: a 404 response against a fresh breaker. -/
theorem C3_witness :
    (get_user 7 (CircuitBreaker.init ⟨5, 2, 60⟩) (fun _ => (0 : ℚ))
      (fun _ => .response 404 .notJson)).invocations = 1 ∧
    (get_user 7 (CircuitBreaker.init ⟨5, 2, 60⟩) (fun _ => (0 : ℚ))
      (fun _ => .response 404 .notJson)).finalState.2 = 1 ∧
    (get_user 7 (CircuitBreaker.init ⟨5, 2, 60⟩) (fun _ => (0 : ℚ))
      (fun _ => .response 404 .notJson)).sleeps = [] ∧
    (get_user 7 (CircuitBreaker.init ⟨5, 2, 60⟩) (fun _ => (0 : ℚ))
      (fun _ => .response 404 .notJson)).result
      = .error (.ServiceError (if (404 : Nat) = 404 then userNotFoundMsg 7
          else userHttpErrorMsg 404)) :=
  C3_non_retryable_http_error_single_attempt 7 (CircuitBreaker.init ⟨5, 2, 60⟩)
    (fun _ => (0 : ℚ)) (fun _ => .response 404 .notJson) 404 .notJson
    rfl rfl (by decide) (by decide)

/-- C3 counterexample: the claim as frozen maps every non-2xx status to
an error kind, but 304 is a non-2xx status on which raise_for_status
does not raise: the response body is parsed and validated instead, and
get_user returns a successful User with no error of any kind, refuting
the claim on that part of its stated scope. -/
theorem C3_counterexample :
    ¬(200 ≤ 304 ∧ 304 < 300) ∧
    (get_user 7 (CircuitBreaker.init ⟨5, 2, 60⟩) (fun _ => (0 : ℚ))
      (fun _ => .response 304 (.jsonUser ⟨7, "Ada", "ada@example.com", 36⟩))).result
      = .ok ⟨7, "Ada", "ada@example.com", 36⟩ :=
  ⟨by decide, rfl⟩

/-- C7: while the breaker is open and its timeout has not elapsed, a
whole get_user call makes exactly one pass with no retry: the
underlying request is never issued, no back-off sleep happens, the
breaker is left untouched, and the caller gets
CircuitBreakerOpenError. -/
theorem C7_open_breaker_yields_no_retries (user_id : ℤ) (cb : CircuitBreaker)
    (times : Nat → ℚ) (transport : Nat → Transport) (t0 : ℚ)
    (h1 : cb.state = .OPEN) (h2 : cb.last_failure_time = some t0)
    (h3 : times 0 - t0 < cb.config.timeout_seconds) :
    (get_user user_id cb times transport).invocations = 1 ∧
    (get_user user_id cb times transport).finalState.1 = cb ∧
    (get_user user_id cb times transport).finalState.2 = 0 ∧
    (get_user user_id cb times transport).sleeps = [] ∧
    (∃ m, (get_user user_id cb times transport).result
      = .error (.CircuitBreakerOpenError m)) := by
  have hreset : cb.should_attempt_reset (times 0) = false := by
    simp only [CircuitBreaker.should_attempt_reset, h2]
    simpa using not_le.mpr h3
  have hcall := callStep_blocked cb (times 0)
    (makeRequestUser user_id (transport 0)) h1 hreset
  have hfunc : getUserStep user_id times transport 0 (cb, 0)
      = (.error (.CircuitBreakerOpenError ("Circuit breaker is OPEN. Last failure: "
          ++ reprStr cb.last_failure_time)), (cb, 0)) := by
    simp [getUserStep, hcall]
  have ht : get_user user_id cb times transport
      = ⟨.error (.CircuitBreakerOpenError ("Circuit breaker is OPEN. Last failure: "
          ++ reprStr cb.last_failure_time)), (cb, 0), 1, []⟩ :=
    retryAux_step_nonretryable defaultRetryConfig retryableUserService
      (getUserStep user_id times transport) 2 0 defaultRetryConfig.initial_delay
      (cb, 0) _ _ hfunc rfl
  rw [ht]
  exact ⟨rfl, rfl, rfl, rfl, ⟨_, rfl⟩⟩

/-- C7 witness: a breaker opened at time 0 with a 60-second timeout,
called again at time 0. -/
theorem C7_witness :
    ((0 : ℚ) - 0
      < (⟨⟨5, 2, 60⟩, .OPEN, 5, 0, some 0⟩ : CircuitBreaker).config.timeout_seconds) ∧
    (get_user 7 ⟨⟨5, 2, 60⟩, .OPEN, 5, 0, some 0⟩ (fun _ => (0 : ℚ))
      (fun _ => .timeout)).invocations = 1 ∧
    (get_user 7 ⟨⟨5, 2, 60⟩, .OPEN, 5, 0, some 0⟩ (fun _ => (0 : ℚ))
      (fun _ => .timeout)).finalState.1 = ⟨⟨5, 2, 60⟩, .OPEN, 5, 0, some 0⟩ ∧
    (get_user 7 ⟨⟨5, 2, 60⟩, .OPEN, 5, 0, some 0⟩ (fun _ => (0 : ℚ))
      (fun _ => .timeout)).finalState.2 = 0 ∧
    (get_user 7 ⟨⟨5, 2, 60⟩, .OPEN, 5, 0, some 0⟩ (fun _ => (0 : ℚ))
      (fun _ => .timeout)).sleeps = [] ∧
    (∃ m, (get_user 7 ⟨⟨5, 2, 60⟩, .OPEN, 5, 0, some 0⟩ (fun _ => (0 : ℚ))
      (fun _ => .timeout)).result = .error (.CircuitBreakerOpenError m)) :=
  have h := C7_open_breaker_yields_no_retries 7
    ⟨⟨5, 2, 60⟩, .OPEN, 5, 0, some 0⟩ (fun _ => (0 : ℚ)) (fun _ => .timeout) 0
    rfl rfl (by simp)
  ⟨by simp, h.1, h.2.1, h.2.2.1, h.2.2.2.1, h.2.2.2.2⟩

/-- C8 (violated by the code): a 200 response whose body is not valid
JSON makes response.json() raise the requests JSONDecodeError, which no
handler in get_user catches: the caller receives a raw non-ServiceError
exception after a single invocation, contradicting the never-a-raw-
transport-exception guarantee. -/
theorem C8_malformed_json_escapes_as_raw_exception :
    (get_user 123 (CircuitBreaker.init ⟨5, 2, 60⟩) (fun _ => (0 : ℚ))
      (fun _ => .response 200 .notJson)).result
      = .error (.RawException "requests.exceptions.JSONDecodeError") ∧
    (get_user 123 (CircuitBreaker.init ⟨5, 2, 60⟩) (fun _ => (0 : ℚ))
      (fun _ => .response 200 .notJson)).invocations = 1 ∧
    (get_user 123 (CircuitBreaker.init ⟨5, 2, 60⟩) (fun _ => (0 : ℚ))
      (fun _ => .response 200 .notJson)).finalState.2 = 1 :=
  ⟨rfl, rfl, rfl⟩

/-- C5 witness: a breaker open since time 0 with timeout 0, called at
time 1. -/
theorem C5_witness :
    ((⟨⟨5, 2, 0⟩, .OPEN, 5, 0, some 0⟩ : CircuitBreaker).config.timeout_seconds
       ≤ (1 : ℚ) - 0) ∧
    (⟨⟨5, 2, 0⟩, .OPEN, 5, 0, some 0⟩ : CircuitBreaker).gate 1 =
      .ok ⟨⟨5, 2, 0⟩, .HALF_OPEN, 5, 0, some 0⟩ ∧
    ((⟨⟨5, 2, 0⟩, .OPEN, 5, 0, some 0⟩ : CircuitBreaker).callStep 1
      ((.ok () : Except ServiceExc Unit))).2.2 = true :=
  ⟨by simp,
   (C5_open_after_timeout_half_opens_and_invokes
      ⟨⟨5, 2, 0⟩, .OPEN, 5, 0, some 0⟩ 1 0 ((.ok () : Except ServiceExc Unit))
      rfl rfl (by simp)).1,
   (C5_open_after_timeout_half_opens_and_invokes
      ⟨⟨5, 2, 0⟩, .OPEN, 5, 0, some 0⟩ 1 0 ((.ok () : Except ServiceExc Unit))
      rfl rfl (by simp)).2⟩
